import Mathlib

/-!
Verification of the ADH Rigging Tools add-on (src/rigging_tools.py) against its
natural-language specification.  Each operator's scene-relevant behaviour is
shallowly embedded: collections of the host scene graph become lists, in-place
mutation becomes explicit state passing, Python exceptions become an explicit
outcome value, and Python strings become Lean strings or lists of characters.
-/

/-! ## Common outcome type

A Blender operator finishes by returning a status set; the only statuses this
add-on produces are FINISHED and CANCELLED.  An uncaught Python exception is a
third possible outcome, recorded with the exception's class name. -/

inductive PyOutcome where
  | finished
  | cancelled
  | exn (kind : String)
deriving DecidableEq, Repr

/-! ## C5: ADH_RenameRegex.execute (src/rigging_tools.py lines 59-82)

The context holds three collections (objects, pose bones, edit bones); each
item has a name and a selection flag.  `re.sub(search_pattern, replacement, ·)`
is the host regex engine, modelled as an opaque function `sub` passed in.
The source picks the collection by `context.mode`, renames every item of the
selected sublist in place, and returns FINISHED; any other mode returns
CANCELLED before touching anything. -/

structure RnItem where
  name : String
  selected : Bool
deriving DecidableEq, Repr

structure RenameCtx where
  mode : String
  objects : List RnItem
  poseBones : List RnItem
  editBones : List RnItem
deriving DecidableEq, Repr

/-- Effect of `item.name = substring_re.sub(replacement_str, item.name)` on one
item of the collection: only items in `item_list` (the selected ones) are
assigned. -/
def renameIf (sub : String → String) (it : RnItem) : RnItem :=
  if it.selected then { it with name := sub it.name } else it

/-- Shallow embedding of `ADH_RenameRegex.execute`. -/
def rename_execute (sub : String → String) (ctx : RenameCtx) : PyOutcome × RenameCtx :=
  if ctx.mode = "OBJECT" then
    (PyOutcome.finished, { ctx with objects := ctx.objects.map (renameIf sub) })
  else if ctx.mode = "POSE" then
    (PyOutcome.finished, { ctx with poseBones := ctx.poseBones.map (renameIf sub) })
  else if ctx.mode = "EDIT_ARMATURE" then
    (PyOutcome.finished, { ctx with editBones := ctx.editBones.map (renameIf sub) })
  else
    (PyOutcome.cancelled, ctx)

/-! ## C6: ADH_AddSubdivisionSurfaceModifier.execute (lines 101-114)

A modifier is modelled by the fields the operator reads or writes plus one
representative untouched field (`levels`) to witness the frame condition.
`obj.modifiers.new('Subsurf', 'SUBSURF')` appends a fresh modifier at the end
of the stack. -/

structure SModifier where
  name : String
  mtype : String
  show_viewport : Bool
  show_expanded : Bool
  levels : Nat
deriving DecidableEq, Repr

def isSubsurf (m : SModifier) : Bool := m.mtype == "SUBSURF"

/-- Effect of `sm.show_viewport = self.show_viewport; sm.show_expanded = False`
applied to every modifier of the list `sml` (the SUBSURF ones). -/
def setSubsurfFlags (sv : Bool) (m : SModifier) : SModifier :=
  if isSubsurf m then { m with show_viewport := sv, show_expanded := false } else m

/-- The modifier appended by the `sml == []` branch; `levels` stands for all the
fields the operator leaves at their host defaults. -/
def newSubsurf (sv : Bool) : SModifier :=
  { name := "Subsurf", mtype := "SUBSURF", show_viewport := sv,
    show_expanded := false, levels := 1 }

/-- Shallow embedding of `ADH_AddSubdivisionSurfaceModifier.execute` on the
modifier stack of one selected mesh object. -/
def subsurf_execute (sv : Bool) (mods : List SModifier) : List SModifier :=
  if mods.filter isSubsurf = [] then mods ++ [newSubsurf sv]
  else mods.map (setSubsurfFlags sv)

/-! ## C7: ADH_RapidPasteDriver.modal (lines 1117-1126)

One modal step.  `saved` is the space captured at invocation (`self._space`)
and `current` the space of the event's context, both modelled by an identifier;
`ev` is `event.type`.  The record collects the return value and the step's two
observable actions: whether `bpy.ops.anim.paste_driver_button()` ran, and
whether the timer was removed. -/

structure ModalStep where
  ret : String
  pasted : Bool
  timer_removed : Bool
deriving DecidableEq, Repr

/-- Shallow embedding of `ADH_RapidPasteDriver.modal`. -/
def rapid_modal (saved current : Nat) (ev : String) : ModalStep :=
  if ev = "ESC" ∨ current ≠ saved then
    { ret := "FINISHED", pasted := false, timer_removed := true }
  else if ev = "TIMER" then
    { ret := "PASS_THROUGH", pasted := true, timer_removed := false }
  else
    { ret := "PASS_THROUGH", pasted := false, timer_removed := false }

/-! ## C8: ADH_CopyCustomShapes.execute (lines 247-260)

A pose bone carries its name, its `custom_shape` reference (name of the shape
object, if any) and one representative untouched field (`rest_data`).
`armature.pose.bones[name]` addresses the first bone of that name and raises
KeyError when absent; the `try`/`except: pass` turns the KeyError case into a
no-op, so the per-bone assignment updates the first matching bone and leaves
everything else alone. -/

structure PBone where
  name : String
  custom_shape : Option String
  rest_data : Nat
deriving DecidableEq, Repr

/-- Effect of `armature.pose.bones[n].custom_shape = cs` wrapped in
`try`/`except: pass` on a destination armature's bone list. -/
def set_bone_shape : List PBone → String → Option String → List PBone
  | [], _, _ => []
  | pb :: bs, n, cs =>
    if pb.name = n then { pb with custom_shape := cs } :: bs
    else pb :: set_bone_shape bs n cs

/-- Shallow embedding of `ADH_CopyCustomShapes.execute` acting on one
destination armature `dst` of `dst_armatures`: the source bones are visited in
order and each assigns its custom shape to the equally named destination
bone. -/
def copy_custom_shapes (src dst : List PBone) : List PBone :=
  src.foldl (fun d b => set_bone_shape d b.name b.custom_shape) dst

/-! ## C9: ADH_MaskSelectedVertices.invoke with ADH_AbstractMaskOperator
(lines 148-155 and 199-233)

Only the vertex-group list structure matters for the claim: a group is its
name (Blender keeps names unique within an object), the active group is an
index.  `save_vg` stores a reference to the active group object; a reference
is stable under the operations performed, so it is modelled by the group's
name, and `orig_vg.index` at restore time is the name's current position.
`vertex_groups.new(name)` appends at the end.  The add/remove/invert actions
alter vertex weights only, never the group list. -/

def MASK_NAME : String := "Z_ADH_MASK"

/-- Shallow embedding of `ADH_MaskSelectedVertices.invoke` restricted to the
vertex-group list and active index: save the active group, ensure the mask
group exists, activate it, run the weight-editing action (no effect on the
group list), and restore the saved group's index. -/
def mask_invoke (groups : List String) (active_index : Nat) : List String × Nat :=
  let orig := groups[active_index]?
  let groups1 := if MASK_NAME ∈ groups then groups else groups ++ [MASK_NAME]
  match orig with
  | some n => (groups1, groups1.indexOf n)
  | none => (groups1, groups1.indexOf MASK_NAME)

/-! ## C10: ADH_RemoveVertexGroupsUnselectedBones.execute (lines 1004-1014)

The operator iterates `obj.vertex_groups` while calling
`obj.vertex_groups.remove(vg)` on the current element.  The collection
iterator is positional: when the element at position k is removed, the
following element shifts into position k and the iterator, advancing to
position k+1, never visits it.  `remove_vertex_groups` reproduces exactly
that: after a removal the next group is kept unexamined. -/

structure VGroup where
  name : String
  lock_weight : Bool
deriving DecidableEq, Repr

/-- The loop-body test `not (vg.name in bone_names or vg.lock_weight)`,
negated: true when the group survives the test. -/
def vg_kept (bone_names : List String) (vg : VGroup) : Bool :=
  bone_names.contains vg.name || vg.lock_weight

/-- Shallow embedding of the `for vg in obj.vertex_groups: ... remove(vg)`
loop of `ADH_RemoveVertexGroupsUnselectedBones.execute`, including the
iterator's skip after each removal. -/
def remove_vertex_groups (bone_names : List String) : List VGroup → List VGroup
  | [] => []
  | [vg] => if vg_kept bone_names vg then [vg] else []
  | vg :: vg2 :: vgs =>
    if vg_kept bone_names vg then
      vg :: remove_vertex_groups bone_names (vg2 :: vgs)
    else
      vg2 :: remove_vertex_groups bone_names vgs

/-- Modelled from the spec and the operator's docstring, which promise removal
of every vertex group that neither belongs to a selected bone nor is
weight-locked: a plain filter. -/
def remove_vertex_groups_doc (bone_names : List String) (vgs : List VGroup) : List VGroup :=
  vgs.filter (vg_kept bone_names)

/-! ## C4: failure signalling of ADH_CreateCustomShape (lines 366-389, 571-590)

`execute` looks up `create_<shape>_widget` via `getattr(. , name, None)`.  The
shapes with such a method are the eight table-based ones; for
`widget_shape == 'selected'` the lookup yields None.  When the lookup failed
and exactly one selected mesh exists, `create_widget_from_object` runs; its
branch for an already existing widget object executes `obj.data = mesh` where
the local name `mesh` was never assigned (line 379), raising NameError.  When
the lookup failed and the number of selected meshes differs from one, the code
calls `func(...)` with `func = None`, raising TypeError.  Host mesh/scene API
calls themselves are assumed to succeed. -/

def widget_shape_names : List String :=
  ["sphere", "ring", "square", "triangle", "bidirection", "box", "fourways", "fourgaps"]

/-- Shallow embedding of `ADH_CreateCustomShape.create_widget_from_object`,
keeping only the control flow that decides the outcome: `obj_name_exists`
states whether an object named `widget_prefix + bone.name` is already in the
scene. -/
def create_widget_from_object_outcome (obj_name_exists : Bool) : PyOutcome :=
  if obj_name_exists then PyOutcome.exn "NameError" else PyOutcome.finished

/-- Shallow embedding of `ADH_CreateCustomShape.execute`'s outcome:
`num_mesh_srcs` is the number of selected mesh objects (`widget_srcs`). -/
def create_shape_execute_outcome (widget_shape : String) (num_mesh_srcs : Nat)
    (obj_name_exists : Bool) : PyOutcome :=
  let has_func := widget_shape ∈ widget_shape_names
  if ¬has_func ∧ num_mesh_srcs = 1 then create_widget_from_object_outcome obj_name_exists
  else if has_func then PyOutcome.finished
  else PyOutcome.exn "TypeError"

/-! ## C1, C2: ADH_CopyDriverSettings string processing (lines 1206-1321)

Python strings become `List Char`; the regex character class `\d` becomes
`Char.isDigit` (decimal digits).  `int(·)` on a digit run and `str(·)` on a
Python integer are embedded below. -/

/-- `int(·)` applied to a nonempty string of decimal digits. -/
def digitsToNat (ds : List Char) : Nat :=
  ds.foldl (fun n c => 10 * n + (c.toNat - 48)) 0

/-- `str(·)` applied to a Python integer: decimal digits, with a leading minus
sign for negative values. -/
def intToStr (i : Int) : List Char :=
  if i < 0 then '-' :: Nat.toDigits 10 i.natAbs else Nat.toDigits 10 i.natAbs

/-- One `int_re.search(expression, start_pos)` for the pattern `\d+`: the
leftmost maximal run of digits at or after the start, returned as the triple
(characters before the match, the matched run, the characters after the
match); `none` when the remainder holds no digit. -/
def findDigitRun : List Char → Option (List Char × List Char × List Char)
  | [] => none
  | c :: cs =>
    if c.isDigit then
      some ([], (c :: cs).takeWhile Char.isDigit, (c :: cs).dropWhile Char.isDigit)
    else
      match findDigitRun cs with
      | none => none
      | some (p, r, rest) => some (c :: p, r, rest)

/-- The `while True` loop of `ADH_CopyDriverSettings.substitute_incremented`:
each iteration searches `\d+` from the current position, copies the
characters before the match, emits `str(int(match) + increment_dict.get(i, 0)
* multiplier)`, and continues after the match with the match index `idx`
increased. -/
def substitute_incremented_from (inc : Nat → Int) (mult : Int)
    (s : List Char) (idx : Nat) : List Char :=
  match h : findDigitRun s with
  | none => s
  | some (p, r, rest) =>
      p ++ intToStr ((digitsToNat r : Int) + inc idx * mult) ++
        substitute_incremented_from inc mult rest (idx + 1)
termination_by s.length
decreasing_by
  have aux : ∀ (l p r rest : List Char),
      findDigitRun l = some (p, r, rest) → rest.length < l.length := by
    intro l
    induction l with
    | nil => intro p r rest hfd; simp [findDigitRun] at hfd
    | cons a as ih =>
      intro p r rest hfd
      by_cases ha : a.isDigit
      · simp only [findDigitRun, if_pos ha, Option.some.injEq, Prod.mk.injEq] at hfd
        obtain ⟨-, -, hrest⟩ := hfd
        subst hrest
        rw [List.dropWhile_cons_of_pos ha]
        exact Nat.lt_succ_of_le (List.dropWhile_sublist Char.isDigit).length_le
      · simp only [findDigitRun, if_neg ha] at hfd
        cases hfd2 : findDigitRun as with
        | none => rw [hfd2] at hfd; simp at hfd
        | some t =>
          obtain ⟨p2, r2, rest2⟩ := t
          rw [hfd2] at hfd
          simp only [Option.some.injEq, Prod.mk.injEq] at hfd
          obtain ⟨-, -, hr⟩ := hfd
          subst hr
          exact Nat.lt_succ_of_lt (ih _ _ _ hfd2)
  exact aux s p r rest h

/-- Shallow embedding of `ADH_CopyDriverSettings.substitute_incremented`,
`match_index` starting at 1; `inc` is `self.increment_dict.get(·, 0)`. -/
def substitute_incremented (inc : Nat → Int) (mult : Int) (s : List Char) : List Char :=
  substitute_incremented_from inc mult s 1

/-! Specification-side view, following the spec's words: scan the expression
left to right for maximal runs of decimal digits; every character outside a
run is copied through, the i-th run (counting from 1) is replaced by the
decimal rendering of its value plus the applicable increment. -/

inductive Tok where
  | run (ds : List Char)
  | ch (c : Char)
deriving DecidableEq, Repr

/-- Left-to-right scan into tokens: maximal digit runs and single other
characters.  `acc` holds the digits of the run in progress, in reverse. -/
def tokenizeAux : List Char → List Char → List Tok
  | acc, [] => if acc = [] then [] else [Tok.run acc.reverse]
  | acc, c :: cs =>
    if c.isDigit then tokenizeAux (c :: acc) cs
    else if acc = [] then Tok.ch c :: tokenizeAux [] cs
    else Tok.run acc.reverse :: Tok.ch c :: tokenizeAux [] cs

def tokenize (s : List Char) : List Tok := tokenizeAux [] s

/-- The maximal digit runs of the expression, left to right. -/
def digitRuns (s : List Char) : List (List Char) :=
  (tokenize s).filterMap (fun t => match t with | Tok.run r => some r | Tok.ch _ => none)

/-- Render the token list: the i-th run becomes the decimal rendering of its
value plus `inc i * mult`, any other character is copied. -/
def renderToks (inc : Nat → Int) (mult : Int) : List Tok → Nat → List Char
  | [], _ => []
  | Tok.ch c :: ts, i => c :: renderToks inc mult ts i
  | Tok.run r :: ts, i =>
      intToStr ((digitsToNat r : Int) + inc i * mult) ++ renderToks inc mult ts (i + 1)

/-- The substitution as the spec describes it. -/
def spec_substitute (inc : Nat → Int) (mult : Int) (s : List Char) : List Char :=
  renderToks inc mult (tokenize s) 1

/-- Concatenate a token list back into a string. -/
def flattenToks : List Tok → List Char
  | [] => []
  | Tok.run r :: ts => r ++ flattenToks ts
  | Tok.ch c :: ts => c :: flattenToks ts

/-! ### C2: generate_increment_dict (lines 1245-1262)

The loop repeatedly applies `increment_dict_re.search` for the pattern
`(\d+)\D*([+-])\D*(\d+)\D*` and resumes after each match.  Hand-compiling the
regex engine's leftmost-match and greedy/backtracking rules for this pattern:

* a match can only begin at the start of a maximal digit run: beginning inside
  a run would leave a digit right after group 1, which `\D*` cannot consume
  and `[+-]` cannot match;
* group 1 is that whole maximal run (stopping earlier again puts a digit after
  group 1);
* the first `\D*` is greedy, so group 2 is the LAST sign character among the
  non-digit characters standing between the first run and the next digit run;
  if no sign occurs there, or no further digit run exists, no match starts at
  this run and the search moves on to the next run;
* group 3 is the next maximal digit run (the second `\D*` must end right
  before a digit for `(\d+)` to match, and `(\d+)` is greedy);
* the trailing `\D*` greedily consumes the non-digits after group 3, so the
  next search resumes at the following digit run — equivalently, at the token
  right after group 3's run, since a match can only begin at a run anyway.

Over the token list this becomes the accumulator scan below. -/

def isSignChar (c : Char) : Bool := c == '+' || c == '-'

/-- Scan state: `none` = looking for a first integer; `some (d1, sgn)` = first
integer `d1` seen, `sgn` the last sign character seen after it (if any). -/
def parse_increments_aux : Option (List Char × Option Char) → List Tok → List (Nat × Int)
  | _, [] => []
  | none, Tok.ch _ :: ts => parse_increments_aux none ts
  | none, Tok.run d :: ts => parse_increments_aux (some (d, none)) ts
  | some (d1, sgn), Tok.ch c :: ts =>
      parse_increments_aux (some (d1, if isSignChar c then some c else sgn)) ts
  | some (d1, sgn), Tok.run d2 :: ts =>
      match sgn with
      | some c =>
          (digitsToNat d1,
            if c == '-' then -(digitsToNat d2 : Int) else (digitsToNat d2 : Int))
            :: parse_increments_aux none ts
      | none => parse_increments_aux (some (d2, none)) ts

/-- The key/increment pairs produced by the successive regex matches of
`generate_increment_dict` on the index string, in match order. -/
def parse_increments (s : List Char) : List (Nat × Int) :=
  parse_increments_aux none (tokenize s)

/-- The increment dictionary.  `ADH_CopyDriverSettings.increment_dict` is a
class attribute initialised to the empty dict when the class is created and
never cleared afterwards, so every invocation starts from the dictionary the
previous invocation left behind. -/
abbrev IncDict := Nat → Option Int

def emptyIncDict : IncDict := fun _ => none

/-- `self.increment_dict[key] = increment`. -/
def dictInsert (d : IncDict) (k : Nat) (v : Int) : IncDict :=
  fun k2 => if k2 = k then some v else d k2

/-- Shallow embedding of `ADH_CopyDriverSettings.generate_increment_dict`:
starting from the dictionary state `d0` left by earlier invocations, store
each match's key/increment pair in match order. -/
def generate_increment_dict (d0 : IncDict) (s : List Char) : IncDict :=
  (parse_increments s).foldl (fun d kv => dictInsert d kv.1 kv.2) d0

/-- Specification-side lookup: the value of the LAST pair for the key, if
any — later matches on the same key overwrite earlier ones. -/
def lastVal (ps : List (Nat × Int)) (k : Nat) : Option Int :=
  (ps.reverse.find? (fun p => p.1 == k)).map (fun p => p.2)

/-! ## C3: the create_*_widget family of ADH_CreateCustomShape (lines 414-565)

Vertex coordinates are modelled over ℚ (the Python float literals are exact
decimal constants; the claim is structural, about scaling and about the
composition of the transform).  `mathutils.Matrix` is a 4x4 row-major matrix
acting on column vectors; `mesh.transform(mat)` maps every vertex v to the
first three components of `mat @ (v, 1)`.  `Matrix.Rotation(radians(rot), 4,
'X')` only involves the cosine `c` and sine `s` of the angle, so the rotation
matrix is embedded as a function of those two values. -/

abbrev Vec3 := ℚ × ℚ × ℚ

structure Vec4 where
  x : ℚ
  y : ℚ
  z : ℚ
  w : ℚ
deriving DecidableEq, Repr

structure Mat4 where
  r0 : Vec4
  r1 : Vec4
  r2 : Vec4
  r3 : Vec4
deriving DecidableEq, Repr

def dot4 (a b : Vec4) : ℚ := a.x * b.x + a.y * b.y + a.z * b.z + a.w * b.w

def col0 (m : Mat4) : Vec4 := ⟨m.r0.x, m.r1.x, m.r2.x, m.r3.x⟩

def col1 (m : Mat4) : Vec4 := ⟨m.r0.y, m.r1.y, m.r2.y, m.r3.y⟩

def col2 (m : Mat4) : Vec4 := ⟨m.r0.z, m.r1.z, m.r2.z, m.r3.z⟩

def col3 (m : Mat4) : Vec4 := ⟨m.r0.w, m.r1.w, m.r2.w, m.r3.w⟩

/-- Row-by-column 4x4 matrix product, as in `trans_mat * rot_mat`. -/
def matMul (a b : Mat4) : Mat4 :=
  ⟨⟨dot4 a.r0 (col0 b), dot4 a.r0 (col1 b), dot4 a.r0 (col2 b), dot4 a.r0 (col3 b)⟩,
   ⟨dot4 a.r1 (col0 b), dot4 a.r1 (col1 b), dot4 a.r1 (col2 b), dot4 a.r1 (col3 b)⟩,
   ⟨dot4 a.r2 (col0 b), dot4 a.r2 (col1 b), dot4 a.r2 (col2 b), dot4 a.r2 (col3 b)⟩,
   ⟨dot4 a.r3 (col0 b), dot4 a.r3 (col1 b), dot4 a.r3 (col2 b), dot4 a.r3 (col3 b)⟩⟩

def mulVec4 (m : Mat4) (v : Vec4) : Vec4 :=
  ⟨dot4 m.r0 v, dot4 m.r1 v, dot4 m.r2 v, dot4 m.r3 v⟩

/-- `Matrix.Rotation(math.radians(rot), 4, 'X')`, with `c` and `s` the cosine
and sine of the angle. -/
def rotationMatX (c s : ℚ) : Mat4 :=
  ⟨⟨1, 0, 0, 0⟩, ⟨0, c, -s, 0⟩, ⟨0, s, c, 0⟩, ⟨0, 0, 0, 1⟩⟩

/-- `Matrix.Translation(t)`. -/
def translationMat (t : Vec3) : Mat4 :=
  ⟨⟨1, 0, 0, t.1⟩, ⟨0, 1, 0, t.2.1⟩, ⟨0, 0, 1, t.2.2⟩, ⟨0, 0, 0, 1⟩⟩

/-- `mesh.transform(mat)` on one vertex. -/
def applyMat4 (m : Mat4) (v : Vec3) : Vec3 :=
  ((mulVec4 m ⟨v.1, v.2.1, v.2.2, 1⟩).x,
   (mulVec4 m ⟨v.1, v.2.1, v.2.2, 1⟩).y,
   (mulVec4 m ⟨v.1, v.2.1, v.2.2, 1⟩).z)
/-- Vertex table of create_sphere_widget (src/rigging_tools.py), as a function of size. -/
def create_sphere_verts (size : ℚ) : List Vec3 :=
  [(-0.3535533845424652*size, -0.3535533845424652*size, 2.9802322387695312e-08*size),
   (-0.5*size, 2.1855694143368964e-08*size, -1.7763568394002505e-15*size),
   (-0.3535533845424652*size, 0.3535533845424652*size, -2.9802322387695312e-08*size),
   (4.371138828673793e-08*size, 0.5*size, -2.9802322387695312e-08*size),
   (-0.24999994039535522*size, -0.3535533845424652*size, 0.2500000596046448*size),
   (-0.3535533845424652*size, 5.960464477539063e-08*size, 0.35355344414711*size),
   (-0.24999994039535522*size, 0.3535534143447876*size, 0.2500000298023224*size),
   (7.968597515173315e-08*size, -0.3535534143447876*size, 0.35355344414711*size),
   (8.585823962903305e-08*size, 5.960464477539063e-08*size, 0.5000001192092896*size),
   (7.968597515173315e-08*size, 0.3535534143447876*size, 0.3535533845424652*size),
   (0.25000008940696716*size, -0.3535533547401428*size, 0.25*size),
   (0.35355350375175476*size, 5.960464477539063e-08*size, 0.3535533845424652*size),
   (0.25000008940696716*size, 0.3535534143447876*size, 0.2499999701976776*size),
   (0.3535534739494324*size, -0.3535534143447876*size, -2.9802322387695312e-08*size),
   (0.5000001192092896*size, 2.9802315282267955e-08*size, -8.429370268459024e-08*size),
   (0.3535534739494324*size, 0.3535533845424652*size, -8.940696716308594e-08*size),
   (0.2500000298023224*size, -0.35355344414711*size, -0.2500000596046448*size),
   (0.3535533845424652*size, 0.0*size, -0.35355350375175476*size),
   (0.2500000298023224*size, 0.35355332493782043*size, -0.25000011920928955*size),
   (-4.494675920341251e-08*size, -0.35355344414711*size, -0.3535534143447876*size),
   (-8.27291728455748e-08*size, 0.0*size, -0.5*size),
   (-4.494675920341251e-08*size, 0.3535533845424652*size, -0.3535534739494324*size),
   (1.2802747306750462e-08*size, -0.5*size, 0.0*size),
   (-0.25000008940696716*size, -0.35355344414711*size, -0.24999994039535522*size),
   (-0.35355350375175476*size, 0.0*size, -0.35355332493782043*size),
   (-0.25000008940696716*size, 0.35355332493782043*size, -0.25*size)]

/-- Edge table of create_sphere_widget (src/rigging_tools.py). -/
def create_sphere_edges : List (Nat × Nat) :=
  [(0, 1), (1, 2), (2, 3), (4, 5), (5, 6), (2, 6), (0, 4), (5, 1), (7, 8), (8, 9), (6, 9), (5, 8), (7, 4), (10, 11), (11, 12), (9, 12), (10, 7), (11, 8), (13, 14), (14, 15), (12, 15), (13, 10), (14, 11), (16, 17), (17, 18), (15, 18), (16, 13), (17, 14), (19, 20), (20, 21), (18, 21), (16, 19), (20, 17), (22, 23), (23, 24), (24, 25), (21, 25), (20, 24), (23, 19), (22, 0), (22, 4), (6, 3), (22, 7), (9, 3), (22, 10), (12, 3), (22, 13), (15, 3), (22, 16), (18, 3), (22, 19), (21, 3), (25, 3), (25, 2), (0, 23), (1, 24)]

/-- Vertex table of create_ring_widget (src/rigging_tools.py), as a function of size. -/
def create_ring_verts (size : ℚ) : List Vec3 :=
  [(0.0*size, 2.9802322387695312e-08*size, 0.5*size),
   (-0.129409521818161*size, 2.9802322387695312e-08*size, 0.4829629063606262*size),
   (-0.25*size, 2.9802322387695312e-08*size, 0.4330126941204071*size),
   (-0.3535533845424652*size, 2.9802322387695312e-08*size, 0.3535533845424652*size),
   (-0.4330127239227295*size, 1.4901161193847656e-08*size, 0.2499999850988388*size),
   (-0.4829629063606262*size, 1.4901161193847656e-08*size, 0.1294095367193222*size),
   (-0.5*size, 3.552713678800501e-15*size, 3.774895063202166e-08*size),
   (-0.4829629361629486*size, -1.4901161193847656e-08*size, -0.12940946221351624*size),
   (-0.4330127537250519*size, -1.4901161193847656e-08*size, -0.24999992549419403*size),
   (-0.3535534739494324*size, -2.9802322387695312e-08*size, -0.35355329513549805*size),
   (-0.25000011920928955*size, -2.9802322387695312e-08*size, -0.43301263451576233*size),
   (-0.12940968573093414*size, -2.9802322387695312e-08*size, -0.48296287655830383*size),
   (-1.9470718370939721e-07*size, -2.9802322387695312e-08*size, -0.5*size),
   (0.1294093132019043*size, -2.9802322387695312e-08*size, -0.482962965965271*size),
   (0.2499997913837433*size, -2.9802322387695312e-08*size, -0.43301281332969666*size),
   (0.3535532057285309*size, -2.9802322387695312e-08*size, -0.3535535931587219*size),
   (0.43301260471343994*size, -2.9802322387695312e-08*size, -0.25000014901161194*size),
   (0.48296284675598145*size, -1.4901161193847656e-08*size, -0.12940971553325653*size),
   (0.5*size, -1.4210854715202004e-14*size, -2.324561449995599e-07*size),
   (0.482962965965271*size, 1.4901161193847656e-08*size, 0.12940926849842072*size),
   (0.43301284313201904*size, 1.4901161193847656e-08*size, 0.2499997466802597*size),
   (0.3535536229610443*size, 2.9802322387695312e-08*size, 0.3535531759262085*size),
   (0.2500002980232239*size, 2.9802322387695312e-08*size, 0.43301254510879517*size),
   (0.12940987944602966*size, 2.9802322387695312e-08*size, 0.48296281695365906*size)]

/-- Edge table of create_ring_widget (src/rigging_tools.py). -/
def create_ring_edges : List (Nat × Nat) :=
  [(1, 0), (2, 1), (3, 2), (4, 3), (5, 4), (6, 5), (7, 6), (8, 7), (9, 8), (10, 9), (11, 10), (12, 11), (13, 12), (14, 13), (15, 14), (16, 15), (17, 16), (18, 17), (19, 18), (20, 19), (21, 20), (22, 21), (23, 22), (0, 23)]

/-- Vertex table of create_square_widget (src/rigging_tools.py), as a function of size. -/
def create_square_verts (size : ℚ) : List Vec3 :=
  [(0.5*size, -0.5*size, 0.0*size),
   (-0.5*size, -0.5*size, 0.0*size),
   (0.5*size, 0.5*size, 0.0*size),
   (-0.5*size, 0.5*size, 0.0*size)]

/-- Edge table of create_square_widget (src/rigging_tools.py). -/
def create_square_edges : List (Nat × Nat) :=
  [(0, 1), (2, 3), (0, 2), (3, 1)]

/-- Vertex table of create_triangle_widget (src/rigging_tools.py), as a function of size. -/
def create_triangle_verts (size : ℚ) : List Vec3 :=
  [(0.0*size, 0.0*size, 0.0),
   (0.6*size, 1.0*size, 0.0),
   (-0.6*size, 1.0*size, 0.0)]

/-- Edge table of create_triangle_widget (src/rigging_tools.py). -/
def create_triangle_edges : List (Nat × Nat) :=
  [(1, 2), (0, 1), (2, 0)]

/-- Vertex table of create_bidirection_widget (src/rigging_tools.py), as a function of size. -/
def create_bidirection_verts (size : ℚ) : List Vec3 :=
  [(0.0*size, -0.5*size, 0.0*size),
   (0.0*size, 0.5*size, 0.0*size),
   (0.15000000596046448*size, -0.3499999940395355*size, 0.0*size),
   (-0.15000000596046448*size, 0.3499999940395355*size, 0.0*size),
   (0.15000000596046448*size, 0.3499999940395355*size, 0.0*size),
   (-0.15000000596046448*size, -0.3499999940395355*size, 0.0*size)]

/-- Edge table of create_bidirection_widget (src/rigging_tools.py). -/
def create_bidirection_edges : List (Nat × Nat) :=
  [(2, 0), (4, 1), (5, 0), (3, 1), (0, 1)]

/-- Vertex table of create_box_widget (src/rigging_tools.py), as a function of size. -/
def create_box_verts (size : ℚ) : List Vec3 :=
  [(-0.5*size, -0.5, -0.5*size),
   (-0.5*size, 0.5, -0.5*size),
   (0.5*size, 0.5, -0.5*size),
   (0.5*size, -0.5, -0.5*size),
   (-0.5*size, -0.5, 0.5*size),
   (-0.5*size, 0.5, 0.5*size),
   (0.5*size, 0.5, 0.5*size),
   (0.5*size, -0.5, 0.5*size)]

/-- Edge table of create_box_widget (src/rigging_tools.py). -/
def create_box_edges : List (Nat × Nat) :=
  [(4, 5), (5, 1), (1, 0), (0, 4), (5, 6), (6, 2), (2, 1), (6, 7), (7, 3), (3, 2), (7, 4), (0, 3)]

/-- Vertex table of create_fourways_widget (src/rigging_tools.py), as a function of size. -/
def create_fourways_verts (size : ℚ) : List Vec3 :=
  [(0.5829628705978394*size, -1.4901161193847656e-08, 0.12940971553325653*size),
   (-0.129409521818161*size, 2.9802322387695312e-08, -0.4829629063606262*size),
   (-0.25*size, 2.9802322387695312e-08, -0.4330126941204071*size),
   (-0.3535533845424652*size, 2.9802322387695312e-08, -0.3535533845424652*size),
   (-0.4330127239227295*size, 1.4901161193847656e-08, -0.2499999850988388*size),
   (-0.4829629063606262*size, 1.4901161193847656e-08, -0.1294095367193222*size),
   (0.5829629898071289*size, 1.4901161193847656e-08, -0.12940926849842072*size),
   (-0.4829629361629486*size, -1.4901161193847656e-08, 0.12940946221351624*size),
   (-0.4330127537250519*size, -1.4901161193847656e-08, 0.24999992549419403*size),
   (-0.3535534739494324*size, -2.9802322387695312e-08, 0.35355329513549805*size),
   (-0.25000011920928955*size, -2.9802322387695312e-08, 0.43301263451576233*size),
   (-0.12940968573093414*size, -2.9802322387695312e-08, 0.48296287655830383*size),
   (-0.12940968573093414*size, -2.9802322387695312e-08, 0.5829628705978394*size),
   (0.1294093132019043*size, -2.9802322387695312e-08, 0.482962965965271*size),
   (0.2499997913837433*size, -2.9802322387695312e-08, 0.43301281332969666*size),
   (0.3535532057285309*size, -2.9802322387695312e-08, 0.3535535931587219*size),
   (0.43301260471343994*size, -2.9802322387695312e-08, 0.25000014901161194*size),
   (0.48296284675598145*size, -1.4901161193847656e-08, 0.12940971553325653*size),
   (0.1294093132019043*size, -2.9802322387695312e-08, 0.5829629898071289*size),
   (0.482962965965271*size, 1.4901161193847656e-08, -0.12940926849842072*size),
   (0.43301284313201904*size, 1.4901161193847656e-08, -0.2499997466802597*size),
   (0.3535536229610443*size, 2.9802322387695312e-08, -0.3535531759262085*size),
   (0.2500002980232239*size, 2.9802322387695312e-08, -0.43301254510879517*size),
   (0.12940987944602966*size, 2.9802322387695312e-08, -0.48296281695365906*size),
   (-0.1941145956516266*size, -2.9802322387695312e-08, 0.5829629898071289*size),
   (-2.102837726170037e-07*size, -3.218650945768786e-08, 0.7560000419616699*size),
   (0.19411394000053406*size, -2.9802322387695312e-08, 0.5829629898071289*size),
   (0.5829628705978394*size, -1.4901161193847656e-08, 0.1941145360469818*size),
   (0.7560000419616699*size, -1.5347723702281886e-14, 2.5105265422098455e-07*size),
   (0.5829629898071289*size, 1.4901161193847656e-08, -0.19411394000053406*size),
   (-0.5829628705978394*size, 1.4901161193847656e-08, -0.19411435723304749*size),
   (-0.7560000419616699*size, 3.8369309255704715e-15, -4.076887094583981e-08*size),
   (-0.5829629302024841*size, -1.4901161193847656e-08, 0.19411414861679077*size),
   (0.0*size, 3.218650945768786e-08, -0.7560000419616699*size),
   (-0.1941143274307251*size, 2.9802322387695312e-08, -0.5829628109931946*size),
   (0.1941147744655609*size, 2.9802322387695312e-08, -0.5829628109931946*size),
   (-0.5829629302024841*size, -1.4901161193847656e-08, 0.12940946221351624*size),
   (-0.5829628705978394*size, 1.4901161193847656e-08, -0.1294095367193222*size),
   (0.12940987944602966*size, 2.9802322387695312e-08, -0.5829628109931946*size),
   (-0.129409521818161*size, 2.9802322387695312e-08, -0.5829628705978394*size)]

/-- Edge table of create_fourways_widget (src/rigging_tools.py). -/
def create_fourways_edges : List (Nat × Nat) :=
  [(2, 1), (3, 2), (4, 3), (5, 4), (8, 7), (9, 8), (10, 9), (11, 10), (39, 34), (14, 13), (15, 14), (16, 15), (17, 16), (38, 23), (37, 5), (20, 19), (21, 20), (22, 21), (23, 22), (36, 32), (25, 24), (26, 25), (0, 17), (18, 13), (12, 24), (28, 27), (29, 28), (6, 29), (6, 19), (0, 27), (31, 30), (32, 31), (12, 11), (36, 7), (37, 30), (34, 33), (33, 35), (38, 35), (18, 26), (39, 1)]

/-- Vertex table of create_fourgaps_widget (src/rigging_tools.py), as a function of size. -/
def create_fourgaps_verts (size : ℚ) : List Vec3 :=
  [(-0.1941143274307251*size, 2.9802322387695312e-08, -0.5829628109931946*size),
   (-0.30721572041511536*size, 3.6622967769517345e-08, -0.532113254070282*size),
   (-0.4344686269760132*size, 3.6622967769517345e-08, -0.4344686269760132*size),
   (-0.532113254070282*size, 1.8311483884758673e-08, -0.30721569061279297*size),
   (-0.5829628705978394*size, 1.4901161193847656e-08, -0.19411435723304749*size),
   (-0.5829629302024841*size, -1.4901161193847656e-08, 0.19411414861679077*size),
   (-0.5321133136749268*size, -1.8311483884758673e-08, 0.3072156310081482*size),
   (-0.43446874618530273*size, -3.6622967769517345e-08, 0.43446850776672363*size),
   (-0.3072158396244049*size, -3.6622967769517345e-08, 0.5321131348609924*size),
   (-0.1941145956516266*size, -2.9802322387695312e-08, 0.5829629898071289*size),
   (0.19411394000053406*size, -2.9802322387695312e-08, 0.5829629898071289*size),
   (0.30721548199653625*size, -3.6622967769517345e-08, 0.5321133732795715*size),
   (0.4344683885574341*size, -3.6622967769517345e-08, 0.4344688653945923*size),
   (0.5321131348609924*size, -3.6622967769517345e-08, 0.3072158992290497*size),
   (0.5829628705978394*size, -1.4901161193847656e-08, 0.1941145360469818*size),
   (0.5829629898071289*size, 1.4901161193847656e-08, -0.19411394000053406*size),
   (0.5321133732795715*size, 1.8311483884758673e-08, -0.3072154223918915*size),
   (0.43446895480155945*size, 3.6622967769517345e-08, -0.4344683885574341*size),
   (0.307216078042984*size, 3.6622967769517345e-08, -0.5321130156517029*size),
   (0.1941147744655609*size, 2.9802322387695312e-08, -0.5829628109931946*size)]

/-- Edge table of create_fourgaps_widget (src/rigging_tools.py). -/
def create_fourgaps_edges : List (Nat × Nat) :=
  [(1, 0), (2, 1), (3, 2), (4, 3), (6, 5), (7, 6), (8, 7), (9, 8), (11, 10), (12, 11), (13, 12), (14, 13), (16, 15), (17, 16), (18, 17), (19, 18)]
inductive WShape where
  | sphere
  | ring
  | square
  | triangle
  | bidirection
  | box
  | fourways
  | fourgaps
deriving DecidableEq, Repr

def vertsOf : WShape → ℚ → List Vec3
  | WShape.sphere => create_sphere_verts
  | WShape.ring => create_ring_verts
  | WShape.square => create_square_verts
  | WShape.triangle => create_triangle_verts
  | WShape.bidirection => create_bidirection_verts
  | WShape.box => create_box_verts
  | WShape.fourways => create_fourways_verts
  | WShape.fourgaps => create_fourgaps_verts

def edgesOf : WShape → List (Nat × Nat)
  | WShape.sphere => create_sphere_edges
  | WShape.ring => create_ring_edges
  | WShape.square => create_square_edges
  | WShape.triangle => create_triangle_edges
  | WShape.bidirection => create_bidirection_edges
  | WShape.box => create_box_edges
  | WShape.fourways => create_fourways_edges
  | WShape.fourgaps => create_fourgaps_edges

/-- Shared tail of every `create_*_widget` function: build `rot_mat` and
`trans_mat`, multiply `mat = trans_mat * rot_mat`, fill the mesh from the
vertex/edge table (`from_pydata`), and apply `mesh.transform(mat)`. -/
def create_widget_mesh (sh : WShape) (size pos c s : ℚ) : List Vec3 × List (Nat × Nat) :=
  let rot_mat := rotationMatX c s
  let trans_mat := translationMat (0, pos, 0)
  let mat := matMul trans_mat rot_mat
  ((vertsOf sh size).map (applyMat4 mat), edgesOf sh)

/-- Specification-side rotation about the X axis (cosine `c`, sine `s`). -/
def rotXApply (c s : ℚ) (v : Vec3) : Vec3 :=
  (v.1, c * v.2.1 - s * v.2.2, s * v.2.1 + c * v.2.2)

/-- Specification-side translation by a vector. -/
def translateApply (t : Vec3) (v : Vec3) : Vec3 :=
  (t.1 + v.1, t.2.1 + v.2.1, t.2.2 + v.2.2)

/-- Uniform scaling of a vertex by `k`, the claim's notion of a table "fixed
up to uniform scaling of vertex coordinates by size". -/
def scaleUniform (k : ℚ) (v : Vec3) : Vec3 := (v.1 * k, v.2.1 * k, v.2.2 * k)

/-- Scaling that multiplies only the X and Z coordinates by `k`, leaving Y
fixed: the scaling actually performed by the box, fourways and fourgaps
tables. -/
def scaleXZ (k : ℚ) (v : Vec3) : Vec3 := (v.1 * k, v.2.1, v.2.2 * k)

/-! # Theorems -/

/-! ## C4 -/

/-- C4: the spec says commands fail only by declining in `poll` or by
returning CANCELLED, with no uncaught exception; evaluating the embedded
control flow of ADH_CreateCustomShape shows two inputs that raise instead.
With `widget_shape = 'selected'`, one selected mesh widget source and an
object named `widget_prefix + bone.name` already present in the scene,
line 379 (`obj.data = mesh`, `mesh` never assigned) raises NameError; with no
selected mesh source the code calls `func(...)` with `func = None`, raising
TypeError.  Neither outcome is the cancellation status. -/
theorem claim_C4_code_bug :
    create_shape_execute_outcome "selected" 1 true = PyOutcome.exn "NameError" ∧
    create_shape_execute_outcome "selected" 0 false = PyOutcome.exn "TypeError" ∧
    PyOutcome.exn "NameError" ≠ PyOutcome.cancelled ∧
    PyOutcome.exn "TypeError" ≠ PyOutcome.cancelled := by
  refine ⟨?_, ?_, ?_, ?_⟩ <;> decide

/-! ## C10 -/

/-- C10: the claim (and the operator's docstring) promise that exactly the
vertex groups that are neither named after a selected bone nor weight-locked
are removed.  On a mesh whose vertex groups are `a` then `b`, both unlocked
and neither a selected bone name, the loop removes `a` and — because the
iterator advances past the element that shifted into the removed slot —
keeps `b`, while the documented behaviour removes both. -/
theorem claim_C10_code_bug :
    remove_vertex_groups ["c"] [⟨"a", false⟩, ⟨"b", false⟩] = [⟨"b", false⟩] ∧
    remove_vertex_groups_doc ["c"] [⟨"a", false⟩, ⟨"b", false⟩] = [] := by
  refine ⟨?_, ?_⟩ <;> decide

/-! ## C7 -/

/-- C7 as stated is false: the paste action is NOT performed on every TIMER
event.  A TIMER event that arrives when the current space already differs
from the captured one terminates the loop without pasting. -/
theorem claim_C7_counterexample :
    (rapid_modal 0 1 "TIMER").pasted = false ∧ (rapid_modal 0 1 "TIMER").ret = "FINISHED" := by
  refine ⟨?_, ?_⟩ <;> decide

/-- C7 (amended): in `ADH_RapidPasteDriver.modal`, the step terminates
(removing the timer and returning FINISHED) exactly when the Escape key is
pressed or the current space differs from the captured one; the paste action
is performed exactly on the TIMER events at which the captured space is still
current; every other event is passed through with no paste and no timer
removal. -/
theorem claim_C7_amended (saved current : Nat) (ev : String) :
    (((rapid_modal saved current ev).ret = "FINISHED" ∧
        (rapid_modal saved current ev).timer_removed = true) ↔
      (ev = "ESC" ∨ current ≠ saved)) ∧
    ((rapid_modal saved current ev).pasted = true ↔ (ev = "TIMER" ∧ current = saved)) ∧
    (((rapid_modal saved current ev).ret = "PASS_THROUGH" ∧
        (rapid_modal saved current ev).timer_removed = false) ↔
      ¬(ev = "ESC" ∨ current ≠ saved)) := by
  by_cases h1 : ev = "ESC" ∨ current ≠ saved
  · have h2 : ¬(ev = "TIMER" ∧ current = saved) := by
      rintro ⟨hT, hC⟩
      rcases h1 with hE | hne
      · rw [hT] at hE; exact absurd hE (by decide)
      · exact hne hC
    simp [rapid_modal, h1, h2]
  · push_neg at h1
    by_cases h3 : ev = "TIMER"
    · simp [rapid_modal, h1.1, h1.2, h3]
    · simp [rapid_modal, h1.1, h1.2, h3]

/-! ## C5 -/

/-- C5: in OBJECT, POSE and EDIT_ARMATURE mode the rename-by-regex command
returns FINISHED, replaces each selected item's name of the mode's collection
by the regex substitution of its old name, leaves unselected items and the
other collections untouched; in any other mode it returns CANCELLED and
changes nothing. -/
theorem claim_C5 (sub : String → String) (ctx : RenameCtx) :
    (ctx.mode = "OBJECT" →
      (rename_execute sub ctx).1 = PyOutcome.finished ∧
      (∀ i : Nat, (rename_execute sub ctx).2.objects[i]? =
        (ctx.objects[i]?).map (fun it =>
          if it.selected then { it with name := sub it.name } else it)) ∧
      (rename_execute sub ctx).2.poseBones = ctx.poseBones ∧
      (rename_execute sub ctx).2.editBones = ctx.editBones) ∧
    (ctx.mode = "POSE" →
      (rename_execute sub ctx).1 = PyOutcome.finished ∧
      (∀ i : Nat, (rename_execute sub ctx).2.poseBones[i]? =
        (ctx.poseBones[i]?).map (fun it =>
          if it.selected then { it with name := sub it.name } else it)) ∧
      (rename_execute sub ctx).2.objects = ctx.objects ∧
      (rename_execute sub ctx).2.editBones = ctx.editBones) ∧
    (ctx.mode = "EDIT_ARMATURE" →
      (rename_execute sub ctx).1 = PyOutcome.finished ∧
      (∀ i : Nat, (rename_execute sub ctx).2.editBones[i]? =
        (ctx.editBones[i]?).map (fun it =>
          if it.selected then { it with name := sub it.name } else it)) ∧
      (rename_execute sub ctx).2.objects = ctx.objects ∧
      (rename_execute sub ctx).2.poseBones = ctx.poseBones) ∧
    (ctx.mode ≠ "OBJECT" → ctx.mode ≠ "POSE" → ctx.mode ≠ "EDIT_ARMATURE" →
      rename_execute sub ctx = (PyOutcome.cancelled, ctx)) := by
  refine ⟨?_, ?_, ?_, ?_⟩
  · intro h
    simp [rename_execute, h, List.getElem?_map]
    exact fun i => rfl
  · intro h
    have h2 : ctx.mode ≠ "OBJECT" := by rw [h]; decide
    simp [rename_execute, h, h2, List.getElem?_map]
    exact fun i => rfl
  · intro h
    have h2 : ctx.mode ≠ "OBJECT" := by rw [h]; decide
    have h3 : ctx.mode ≠ "POSE" := by rw [h]; decide
    simp [rename_execute, h, h2, h3, List.getElem?_map]
    exact fun i => rfl
  · intro h1 h2 h3
    simp [rename_execute, h1, h2, h3]

/-- Closed instance of C5 discharging the mode hypothesis: in OBJECT mode the
selected object is renamed by the substitution and the unselected one is not. -/
theorem claim_C5_witness :
    (rename_execute (fun n => n ++ "x")
        ⟨"OBJECT", [⟨"a", true⟩, ⟨"b", false⟩], [], []⟩).2.objects[0]? =
      some ⟨"ax", true⟩ := by
  have h := (claim_C5 (fun n => n ++ "x")
    ⟨"OBJECT", [⟨"a", true⟩, ⟨"b", false⟩], [], []⟩).1 rfl
  simpa using h.2.1 0

/-! ## C6 -/

/-- `setSubsurfFlags` does not change the modifier's type. -/
theorem isSubsurf_setSubsurfFlags (sv : Bool) (m : SModifier) :
    isSubsurf (setSubsurfFlags sv m) = isSubsurf m := by
  by_cases h : isSubsurf m
  · rw [setSubsurfFlags, if_pos h]
    rfl
  · rw [setSubsurfFlags, if_neg h]

/-- `setSubsurfFlags` is idempotent. -/
theorem setSubsurfFlags_idem (sv : Bool) (m : SModifier) :
    setSubsurfFlags sv (setSubsurfFlags sv m) = setSubsurfFlags sv m := by
  by_cases h : isSubsurf m
  · have h1 : setSubsurfFlags sv m = { m with show_viewport := sv, show_expanded := false } := by
      rw [setSubsurfFlags, if_pos h]
    have h2 : isSubsurf ({ m with show_viewport := sv, show_expanded := false } : SModifier) = true := h
    rw [h1, setSubsurfFlags, if_pos h2]
  · have h1 : setSubsurfFlags sv m = m := by rw [setSubsurfFlags, if_neg h]
    rw [h1, h1]

/-- C6: the add-subdivision-surface command appends a new SUBSURF modifier
exactly when none is present; otherwise it only rewrites the
`show_viewport`/`show_expanded` flags of the stack's SUBSURF modifiers,
keeping length and every other field; and running it twice equals running it
once. -/
theorem claim_C6 (sv : Bool) (mods : List SModifier) :
    (mods.filter isSubsurf = [] → subsurf_execute sv mods = mods ++ [newSubsurf sv]) ∧
    (mods.filter isSubsurf ≠ [] →
      (subsurf_execute sv mods).length = mods.length ∧
      ∀ i : Nat, (subsurf_execute sv mods)[i]? = (mods[i]?).map (setSubsurfFlags sv)) ∧
    subsurf_execute sv (subsurf_execute sv mods) = subsurf_execute sv mods := by
  refine ⟨?_, ?_, ?_⟩
  · intro h
    simp [subsurf_execute, h]
  · intro h
    simp [subsurf_execute, h, List.getElem?_map]
  · by_cases h : mods.filter isSubsurf = []
    · have hall : ∀ m ∈ mods, ¬isSubsurf m := by
        intro m hm
        exact List.filter_eq_nil_iff.mp h m hm
      have hstep : subsurf_execute sv mods = mods ++ [newSubsurf sv] := by
        simp [subsurf_execute, h]
      rw [hstep]
      have hfil : (mods ++ [newSubsurf sv]).filter isSubsurf = [newSubsurf sv] := by
        rw [List.filter_append, h]
        simp [isSubsurf, newSubsurf]
      have hne : (mods ++ [newSubsurf sv]).filter isSubsurf ≠ [] := by
        rw [hfil]; exact List.cons_ne_nil _ _
      simp only [subsurf_execute, if_neg hne]
      rw [List.map_append]
      congr 1
      · calc mods.map (setSubsurfFlags sv) = mods.map id := by
              apply List.map_congr_left
              intro m hm
              simp [setSubsurfFlags, hall m hm]
            _ = mods := List.map_id mods
    · have hstep : subsurf_execute sv mods = mods.map (setSubsurfFlags sv) := by
        simp [subsurf_execute, h]
      rw [hstep]
      obtain ⟨m, hm, hms⟩ : ∃ m ∈ mods, isSubsurf m := by
        rcases List.exists_mem_of_ne_nil _ h with ⟨m, hm⟩
        exact ⟨m, (List.mem_filter.mp hm).1, (List.mem_filter.mp hm).2⟩
      have hne : (mods.map (setSubsurfFlags sv)).filter isSubsurf ≠ [] := by
        intro hnil
        have : setSubsurfFlags sv m ∈ (mods.map (setSubsurfFlags sv)).filter isSubsurf := by
          rw [List.mem_filter]
          exact ⟨List.mem_map_of_mem _ hm, by rw [isSubsurf_setSubsurfFlags]; exact hms⟩
        rw [hnil] at this
        exact absurd this (List.not_mem_nil _)
      simp only [subsurf_execute, if_neg hne]
      rw [List.map_map]
      apply List.map_congr_left
      intro a _
      exact setSubsurfFlags_idem sv a

/-- Closed instance of C6 discharging the no-SUBSURF hypothesis: on a stack
with only an ARMATURE modifier the command appends a fresh SUBSURF modifier. -/
theorem claim_C6_witness :
    subsurf_execute true [⟨"Armature", "ARMATURE", true, true, 0⟩] =
      [⟨"Armature", "ARMATURE", true, true, 0⟩, newSubsurf true] :=
  (claim_C6 true [⟨"Armature", "ARMATURE", true, true, 0⟩]).1 (by decide)

/-! ## C9 -/

/-- C9: masking selected vertices restores the previously active vertex-group
index.  `save_vg` keeps a reference to the active group; the invocation at
most appends the mask group at the end of the list, so every existing group
keeps its position and `restore_vg` sets the index back to its old value. -/
theorem claim_C9 (groups : List String) (ai : Nat)
    (hnd : groups.Nodup) (hai : ai < groups.length) :
    (mask_invoke groups ai).2 = ai := by
  have horig : groups[ai]? = some groups[ai] := List.getElem?_eq_getElem hai
  by_cases hm : MASK_NAME ∈ groups
  · simp only [mask_invoke, horig, if_pos hm]
    exact List.indexOf_getElem hnd ai hai
  · simp only [mask_invoke, horig, if_neg hm]
    rw [List.indexOf_append_of_mem (List.getElem_mem hai)]
    exact List.indexOf_getElem hnd ai hai

/-- Closed instance of C9 discharging both hypotheses: with groups `a`, `b`
and active index 1, the index is 1 again after the invocation. -/
theorem claim_C9_witness : (mask_invoke ["a", "b"] 1).2 = 1 :=
  claim_C9 ["a", "b"] 1 (by decide) (by decide)

/-! ## C8 -/

/-- `set_bone_shape` preserves the bone names. -/
theorem set_bone_shape_map_name (l : List PBone) (n : String) (cs : Option String) :
    (set_bone_shape l n cs).map PBone.name = l.map PBone.name := by
  induction l with
  | nil => rfl
  | cons pb bs ih =>
    by_cases h : pb.name = n
    · simp [set_bone_shape, h]
    · simp [set_bone_shape, h, ih]

/-- Pointwise effect of `set_bone_shape` on a bone list with distinct names:
the bone named `n` (if any) gets custom shape `cs`, every other entry is
untouched. -/
theorem set_bone_shape_getElem (l : List PBone) (n : String) (cs : Option String)
    (hnd : (l.map PBone.name).Nodup) (i : Nat) :
    (set_bone_shape l n cs)[i]? = (l[i]?).map (fun pb =>
      if pb.name = n then { pb with custom_shape := cs } else pb) := by
  induction l generalizing i with
  | nil => simp [set_bone_shape]
  | cons pb bs ih =>
    simp only [List.map_cons, List.nodup_cons] at hnd
    by_cases h : pb.name = n
    · rw [set_bone_shape, if_pos h]
      match i with
      | 0 => simp [h]
      | Nat.succ j =>
        simp only [List.getElem?_cons_succ]
        cases hj : bs[j]? with
        | none => rfl
        | some b =>
          have hbmem : b ∈ bs := List.getElem?_mem hj
          have hbn : b.name ≠ n := by
            intro heq
            apply hnd.1
            rw [h, ← heq]
            exact List.mem_map_of_mem _ hbmem
          simp [hbn]
    · rw [set_bone_shape, if_neg h]
      match i with
      | 0 => simp [h]
      | Nat.succ j =>
        simp only [List.getElem?_cons_succ]
        exact ih hnd.2 j

/-- `copy_custom_shapes` preserves the destination bone names. -/
theorem copy_custom_shapes_map_name (src dst : List PBone) :
    (copy_custom_shapes src dst).map PBone.name = dst.map PBone.name := by
  induction src generalizing dst with
  | nil => rfl
  | cons sb src2 ih =>
    show (copy_custom_shapes src2 (set_bone_shape dst sb.name sb.custom_shape)).map PBone.name = _
    rw [ih, set_bone_shape_map_name]

/-- Pointwise characterisation of `copy_custom_shapes` under distinct names:
each destination entry with a matching source bone takes that bone's custom
shape, all the rest is unchanged. -/
theorem copy_custom_shapes_getElem (src : List PBone) :
    ∀ dst : List PBone, (src.map PBone.name).Nodup → (dst.map PBone.name).Nodup →
    ∀ i : Nat, (copy_custom_shapes src dst)[i]? = (dst[i]?).map (fun pb =>
      match src.find? (fun b => b.name == pb.name) with
      | some sb => { pb with custom_shape := sb.custom_shape }
      | none => pb) := by
  induction src with
  | nil =>
    intro dst _ _ i
    show dst[i]? = _
    cases hj : dst[i]? with
    | none => rfl
    | some pb => simp [List.find?]
  | cons sb src2 ih =>
    intro dst hs hd i
    simp only [List.map_cons, List.nodup_cons] at hs
    have hd2 : ((set_bone_shape dst sb.name sb.custom_shape).map PBone.name).Nodup := by
      rw [set_bone_shape_map_name]; exact hd
    have hstep : (copy_custom_shapes (sb :: src2) dst)[i]? =
        (copy_custom_shapes src2 (set_bone_shape dst sb.name sb.custom_shape))[i]? := rfl
    rw [hstep, ih _ hs.2 hd2 i, set_bone_shape_getElem dst sb.name sb.custom_shape hd i,
      Option.map_map]
    cases hj : dst[i]? with
    | none => rfl
    | some pb =>
      simp only [Option.map_some']
      by_cases hname : pb.name = sb.name
      · have hfind2 : src2.find? (fun b => b.name == pb.name) = none := by
          rw [List.find?_eq_none]
          intro b hb
          simp only [beq_iff_eq]
          intro heq
          apply hs.1
          rw [← hname, ← heq]
          exact List.mem_map_of_mem _ hb
        have hfind1 : (sb :: src2).find? (fun b => b.name == pb.name) = some sb := by
          rw [List.find?_cons_of_pos]
          simp [hname]
        simp only [Function.comp_apply, if_pos hname, hfind1]
        have hname2 : ({ pb with custom_shape := sb.custom_shape } : PBone).name = pb.name := rfl
        rw [show ({ pb with custom_shape := sb.custom_shape } : PBone).name = pb.name from rfl]
          at hfind2 ⊢
        simp [hfind2]
      · have hfind1 : (sb :: src2).find? (fun b => b.name == pb.name) =
            src2.find? (fun b => b.name == pb.name) := by
          rw [List.find?_cons_of_neg]
          simp only [beq_iff_eq]
          intro heq
          exact hname heq.symm
        simp only [Function.comp_apply, if_neg hname, hfind1]

/-- C8: after the copy-custom-shapes command, every destination bone whose
name is borne by a source pose bone has that source bone's custom shape;
every other destination bone, and every other field of every destination
bone, is unchanged; the destination bone list keeps its length. -/
theorem claim_C8 (src dst : List PBone)
    (hs : (src.map PBone.name).Nodup) (hd : (dst.map PBone.name).Nodup) :
    (copy_custom_shapes src dst).length = dst.length ∧
    ∀ i : Nat, (copy_custom_shapes src dst)[i]? = (dst[i]?).map (fun pb =>
      match src.find? (fun b => b.name == pb.name) with
      | some sb => { pb with custom_shape := sb.custom_shape }
      | none => pb) := by
  constructor
  · have h := congrArg List.length (copy_custom_shapes_map_name src dst)
    simpa using h
  · exact copy_custom_shapes_getElem src dst hs hd

/-- Closed instance of C8 discharging both distinct-names hypotheses: the
destination bone `a` takes the source's shape and keeps its other field, and
bone `b`, absent from the source, is untouched. -/
theorem claim_C8_witness :
    (copy_custom_shapes [⟨"a", some "W", 0⟩] [⟨"a", none, 5⟩, ⟨"b", some "V", 6⟩])[0]? =
        some ⟨"a", some "W", 5⟩ ∧
    (copy_custom_shapes [⟨"a", some "W", 0⟩] [⟨"a", none, 5⟩, ⟨"b", some "V", 6⟩])[1]? =
        some ⟨"b", some "V", 6⟩ := by
  have h := (claim_C8 [⟨"a", some "W", 0⟩] [⟨"a", none, 5⟩, ⟨"b", some "V", 6⟩]
    (by decide) (by decide)).2
  refine ⟨?_, ?_⟩
  · have h0 := h 0
    simpa using h0
  · have h1 := h 1
    simpa using h1

/-! ## C2 -/

/-- Folding the per-match insertions over a starting dictionary state:
at each key, the result is the last inserted pair's value if the key was
inserted, and the starting state's value otherwise. -/
theorem foldl_dictInsert_eq (ps : List (Nat × Int)) (d : IncDict) (k : Nat) :
    (ps.foldl (fun d2 kv => dictInsert d2 kv.1 kv.2) d) k =
      match ps.reverse.find? (fun p => p.1 == k) with
      | some p => some p.2
      | none => d k := by
  induction ps generalizing d with
  | nil => rfl
  | cons kv ps2 ih =>
    show (ps2.foldl _ (dictInsert d kv.1 kv.2)) k = _
    rw [ih, List.reverse_cons, List.find?_append]
    cases hf : ps2.reverse.find? (fun p => p.1 == k) with
    | some p => simp [hf]
    | none =>
      by_cases hk : kv.1 = k
      · simp [hf, List.find?, hk, dictInsert]
      · have hk2 : k ≠ kv.1 := fun h => hk h.symm
        have hb : (kv.1 == k) = false := beq_eq_false_iff_ne.mpr hk
        simp [hf, List.find?, dictInsert, hb, hk2]

/-- C2 (amended): starting from the empty dictionary (the state before the
first invocation; the dictionary is class-level state and is never cleared),
after `generate_increment_dict(s)` the dictionary maps exactly the keys of
the matches parsed from `s`, each to the increment of its LAST match (later
matches overwrite earlier ones), and no other key is present. -/
theorem claim_C2_amended (s : List Char) (k : Nat) :
    generate_increment_dict emptyIncDict s k = lastVal (parse_increments s) k := by
  rw [generate_increment_dict, foldl_dictInsert_eq, lastVal]
  cases hf : (parse_increments s).reverse.find? (fun p => p.1 == k) <;>
    simp [hf, emptyIncDict]

/-- C2 as stated is false on the second invocation: the dictionary is shared
class state, so after running on "5+7" and then on "1+2" it still contains
the entry 5 -> 7, although the only pair parsed from "1+2" is (1, 2). -/
theorem claim_C2_counterexample :
    generate_increment_dict (generate_increment_dict emptyIncDict "5+7".data) "1+2".data 5 =
        some 7 ∧
    parse_increments "1+2".data = [(1, 2)] := by
  refine ⟨?_, ?_⟩ <;> decide

/-! ## C1 -/

/-- Unfolding of `tokenizeAux` on the empty string. -/
theorem tokenizeAux_nil (acc : List Char) :
    tokenizeAux acc [] = if acc = [] then [] else [Tok.run acc.reverse] := rfl

/-- Unfolding of `tokenizeAux` on a cons. -/
theorem tokenizeAux_cons (acc : List Char) (c : Char) (cs : List Char) :
    tokenizeAux acc (c :: cs) =
      if c.isDigit then tokenizeAux (c :: acc) cs
      else if acc = [] then Tok.ch c :: tokenizeAux [] cs
      else Tok.run acc.reverse :: Tok.ch c :: tokenizeAux [] cs := rfl

/-- Unfolding of `renderToks` on a copied character. -/
theorem renderToks_ch (inc : Nat → Int) (mult : Int) (c : Char) (ts : List Tok) (idx : Nat) :
    renderToks inc mult (Tok.ch c :: ts) idx = c :: renderToks inc mult ts idx := rfl

/-- Unfolding of `renderToks` on a digit run. -/
theorem renderToks_run (inc : Nat → Int) (mult : Int) (r : List Char) (ts : List Tok) (idx : Nat) :
    renderToks inc mult (Tok.run r :: ts) idx =
      intToStr ((digitsToNat r : Int) + inc idx * mult) ++ renderToks inc mult ts (idx + 1) := rfl

/-- When the regex search fails, no character of the remainder is a digit. -/
theorem findDigitRun_none_all (s : List Char) (h : findDigitRun s = none) :
    ∀ c ∈ s, ¬c.isDigit := by
  induction s with
  | nil => intro c hc; simp at hc
  | cons a as ih =>
    by_cases ha : a.isDigit
    · rw [findDigitRun, if_pos ha] at h
      simp at h
    · rw [findDigitRun, if_neg ha] at h
      cases hfd : findDigitRun as with
      | none =>
        intro c hc
        rcases List.mem_cons.mp hc with hca | hcas
        · rw [hca]; exact ha
        · exact ih (by rw [hfd]) c hcas
      | some t =>
        rw [hfd] at h
        obtain ⟨p2, r2, rest2⟩ := t
        simp at h

/-- The first element of `dropWhile Char.isDigit`, when present, is not a
digit. -/
theorem head_dropWhile_not_digit (l : List Char) :
    ∀ c ∈ (l.dropWhile Char.isDigit).head?, ¬c.isDigit := by
  induction l with
  | nil => intro c hc; simp at hc
  | cons a as ih =>
    by_cases ha : a.isDigit
    · rw [List.dropWhile_cons_of_pos ha]; exact ih
    · rw [List.dropWhile_cons_of_neg ha]
      intro c hc
      simp only [List.head?_cons, Option.mem_def, Option.some.injEq] at hc
      rw [← hc]; exact ha

/-- Characterisation of a successful regex search for `\d+`: the input splits
as prefix ++ run ++ rest, the prefix is digit-free, the run is a nonempty
string of digits, and the rest does not begin with a digit (maximality). -/
theorem findDigitRun_some_char (s : List Char) :
    ∀ p r rest : List Char, findDigitRun s = some (p, r, rest) →
      s = p ++ r ++ rest ∧ (∀ c ∈ p, ¬c.isDigit) ∧ r ≠ [] ∧ (∀ c ∈ r, c.isDigit) ∧
        ∀ c ∈ rest.head?, ¬c.isDigit := by
  induction s with
  | nil => intro p r rest h; simp [findDigitRun] at h
  | cons a as ih =>
    intro p r rest h
    by_cases ha : a.isDigit
    · rw [findDigitRun, if_pos ha] at h
      simp only [Option.some.injEq, Prod.mk.injEq] at h
      obtain ⟨hp, hr, hrest⟩ := h
      subst hp; subst hr; subst hrest
      refine ⟨?_, ?_, ?_, ?_, ?_⟩
      · rw [List.nil_append, List.takeWhile_append_dropWhile]
      · intro c hc; simp at hc
      · rw [List.takeWhile_cons_of_pos ha]; exact List.cons_ne_nil _ _
      · intro c hc; exact List.mem_takeWhile_imp hc
      · exact head_dropWhile_not_digit (a :: as)
    · rw [findDigitRun, if_neg ha] at h
      cases hfd : findDigitRun as with
      | none => rw [hfd] at h; simp at h
      | some t =>
        obtain ⟨p2, r2, rest2⟩ := t
        rw [hfd] at h
        simp only [Option.some.injEq, Prod.mk.injEq] at h
        obtain ⟨hp, hr, hrest⟩ := h
        obtain ⟨hseq, hpd, hrne, hrdig, hrh⟩ := ih p2 r2 rest2 hfd
        subst hp; subst hr; subst hrest
        refine ⟨?_, ?_, hrne, hrdig, hrh⟩
        · rw [List.cons_append, List.cons_append, ← hseq]
        · intro c hc
          rcases List.mem_cons.mp hc with hca | hcp
          · rw [hca]; exact ha
          · exact hpd c hcp

/-- A successful search strictly shortens the remainder of the string. -/
theorem findDigitRun_rest_length (s : List Char) :
    ∀ p r rest : List Char, findDigitRun s = some (p, r, rest) →
      rest.length < s.length := by
  intro p r rest h
  obtain ⟨hseq, -, hrne, -, -⟩ := findDigitRun_some_char s p r rest h
  rw [hseq]
  simp only [List.append_assoc, List.length_append]
  cases r with
  | nil => exact absurd rfl hrne
  | cons d r2 => simp [Nat.lt_add_left_iff_pos]; omega

/-- A digit-free string tokenizes to single characters. -/
theorem tokenize_of_no_digit (s : List Char) (h : ∀ c ∈ s, ¬c.isDigit) :
    tokenize s = s.map Tok.ch := by
  induction s with
  | nil => rfl
  | cons a as ih =>
    have ha : ¬a.isDigit := h a (List.mem_cons_self a as)
    show tokenizeAux [] (a :: as) = _
    rw [tokenizeAux_cons, if_neg ha, if_pos rfl, List.map_cons]
    exact congrArg _ (ih (fun c hc => h c (List.mem_cons_of_mem _ hc)))

/-- Scanning a digit run with a nonempty accumulator closes the run at the
first non-digit (or the end). -/
theorem tokenizeAux_run (r : List Char) :
    ∀ acc rest : List Char, acc ≠ [] → (∀ c ∈ r, c.isDigit) →
      (∀ c ∈ rest.head?, ¬c.isDigit) →
      tokenizeAux acc (r ++ rest) = Tok.run (acc.reverse ++ r) :: tokenize rest := by
  induction r with
  | nil =>
    intro acc rest hacc _ hrest
    cases rest with
    | nil =>
      rw [List.append_nil, tokenizeAux_nil, if_neg hacc]
      simp [tokenize, tokenizeAux_nil]
    | cons b bs =>
      have hb : ¬b.isDigit := hrest b (by simp)
      rw [List.nil_append, tokenizeAux_cons, if_neg hb, if_neg hacc]
      rw [tokenize, tokenizeAux_cons, if_neg hb, if_pos rfl]
      simp
  | cons d r2 ih =>
    intro acc rest hacc hdig hrest
    have hd : d.isDigit := hdig d (by simp)
    rw [List.cons_append, tokenizeAux_cons, if_pos hd]
    rw [ih (d :: acc) rest (List.cons_ne_nil _ _)
      (fun c hc => hdig c (List.mem_cons_of_mem _ hc)) hrest]
    simp

/-- Tokenization of a digit-free prefix, a maximal digit run, and a rest not
beginning with a digit. -/
theorem tokenize_decomp (p : List Char) :
    ∀ r rest : List Char, (∀ c ∈ p, ¬c.isDigit) → r ≠ [] → (∀ c ∈ r, c.isDigit) →
      (∀ c ∈ rest.head?, ¬c.isDigit) →
      tokenize (p ++ r ++ rest) = p.map Tok.ch ++ Tok.run r :: tokenize rest := by
  induction p with
  | nil =>
    intro r rest _ hrne hdig hrest
    cases r with
    | nil => exact absurd rfl hrne
    | cons d r2 =>
      have hd : d.isDigit := hdig d (by simp)
      show tokenizeAux [] _ = _
      rw [List.nil_append, List.cons_append, tokenizeAux_cons, if_pos hd]
      rw [tokenizeAux_run r2 [d] rest (List.cons_ne_nil _ _)
        (fun c hc => hdig c (List.mem_cons_of_mem _ hc)) hrest]
      simp
  | cons a p2 ih =>
    intro r rest hp hrne hdig hrest
    have ha : ¬a.isDigit := hp a (by simp)
    show tokenizeAux [] _ = _
    rw [List.cons_append, List.cons_append, tokenizeAux_cons, if_neg ha, if_pos rfl]
    rw [show tokenizeAux [] (p2 ++ r ++ rest) = tokenize (p2 ++ r ++ rest) from rfl]
    rw [ih r rest (fun c hc => hp c (List.mem_cons_of_mem _ hc)) hrne hdig hrest]
    simp

/-- Rendering copies a digit-free prefix through. -/
theorem renderToks_map_ch (inc : Nat → Int) (mult : Int) (p : List Char) :
    ∀ (ts : List Tok) (idx : Nat),
      renderToks inc mult (p.map Tok.ch ++ ts) idx = p ++ renderToks inc mult ts idx := by
  induction p with
  | nil => intro ts idx; rfl
  | cons a p2 ih =>
    intro ts idx
    rw [List.map_cons, List.cons_append, renderToks_ch, ih ts idx, List.cons_append]

/-- The loop of `substitute_incremented` when the search fails: the remainder
is copied. -/
theorem substitute_from_none (inc : Nat → Int) (mult : Int) (s : List Char) (idx : Nat)
    (h : findDigitRun s = none) :
    substitute_incremented_from inc mult s idx = s := by
  rw [substitute_incremented_from]
  split
  · rfl
  · next p r rest heq => rw [h] at heq; simp at heq

/-- The loop of `substitute_incremented` on a successful search: prefix,
substituted run, then the loop on the rest with the next match index. -/
theorem substitute_from_some (inc : Nat → Int) (mult : Int) (s : List Char) (idx : Nat)
    (p r rest : List Char) (h : findDigitRun s = some (p, r, rest)) :
    substitute_incremented_from inc mult s idx =
      p ++ intToStr ((digitsToNat r : Int) + inc idx * mult) ++
        substitute_incremented_from inc mult rest (idx + 1) := by
  rw [substitute_incremented_from]
  split
  · next heq => rw [h] at heq; simp at heq
  · next p2 r2 rest2 heq =>
    rw [h] at heq
    simp only [Option.some.injEq, Prod.mk.injEq] at heq
    obtain ⟨hp, hr, hrest⟩ := heq
    subst hp; subst hr; subst hrest
    rfl

/-- The regex-search loop of `substitute_incremented` computes exactly the
left-to-right scan-and-render of the specification. -/
theorem substitute_from_eq_render (inc : Nat → Int) (mult : Int) :
    ∀ (n : Nat) (s : List Char), s.length ≤ n → ∀ idx : Nat,
      substitute_incremented_from inc mult s idx = renderToks inc mult (tokenize s) idx := by
  intro n
  induction n with
  | zero =>
    intro s hs idx
    have h0 : s = [] := List.length_eq_zero.mp (Nat.le_zero.mp hs)
    subst h0
    rw [substitute_from_none inc mult [] idx rfl]
    rfl
  | succ n ih =>
    intro s hs idx
    cases hfd : findDigitRun s with
    | none =>
      rw [substitute_from_none inc mult s idx hfd]
      rw [tokenize_of_no_digit s (findDigitRun_none_all s hfd)]
      have hm := renderToks_map_ch inc mult s [] idx
      rw [List.append_nil] at hm
      rw [hm]
      simp [renderToks]
    | some t =>
      obtain ⟨p, r, rest⟩ := t
      obtain ⟨hseq, hp, hrne, hrdig, hrh⟩ := findDigitRun_some_char s p r rest hfd
      rw [substitute_from_some inc mult s idx p r rest hfd]
      rw [hseq, tokenize_decomp p r rest hp hrne hrdig hrh]
      rw [renderToks_map_ch inc mult p (Tok.run r :: tokenize rest) idx]
      rw [renderToks_run]
      have hlen : rest.length ≤ n := by
        have hlt := findDigitRun_rest_length s p r rest hfd
        omega
      rw [ih rest hlen (idx + 1)]
      simp [List.append_assoc]

/-- `substitute_incremented` equals the specification's scan-and-render. -/
theorem substitute_eq_spec (inc : Nat → Int) (mult : Int) (s : List Char) :
    substitute_incremented inc mult s = spec_substitute inc mult s :=
  substitute_from_eq_render inc mult s.length s (le_refl _) 1

/-- Flattening the token list restores the string (with the pending run
prepended). -/
theorem flattenToks_tokenizeAux (s : List Char) :
    ∀ acc : List Char, flattenToks (tokenizeAux acc s) = acc.reverse ++ s := by
  induction s with
  | nil =>
    intro acc
    rw [tokenizeAux_nil]
    by_cases h : acc = []
    · subst h; simp [flattenToks]
    · rw [if_neg h]; simp [flattenToks]
  | cons c cs ih =>
    intro acc
    rw [tokenizeAux_cons]
    by_cases hc : c.isDigit
    · rw [if_pos hc, ih (c :: acc)]
      simp
    · rw [if_neg hc]
      by_cases h : acc = []
      · subst h
        rw [if_pos rfl]
        simp [flattenToks, ih]
      · rw [if_neg h]
        simp [flattenToks, ih]

/-- Tokenization round-trips. -/
theorem flattenToks_tokenize (s : List Char) : flattenToks (tokenize s) = s := by
  have h := flattenToks_tokenizeAux s []
  simpa [tokenize] using h

/-- With all increments 0 and every run rendering back to itself, rendering
is flattening. -/
theorem renderToks_self (inc : Nat → Int) (mult : Int) (hinc : ∀ i, inc i = 0)
    (ts : List Tok) :
    ∀ idx : Nat, (∀ r, Tok.run r ∈ ts → intToStr ((digitsToNat r : Int)) = r) →
      renderToks inc mult ts idx = flattenToks ts := by
  induction ts with
  | nil => intro idx _; rfl
  | cons t ts2 ih =>
    intro idx hr
    cases t with
    | ch c =>
      rw [renderToks_ch, ih idx (fun r2 hrr => hr r2 (List.mem_cons_of_mem _ hrr))]
      simp [flattenToks]
    | run r =>
      rw [renderToks_run, hinc idx]
      simp only [zero_mul, add_zero]
      rw [hr r (List.mem_cons_self _ _)]
      rw [ih (idx + 1) (fun r2 hrr => hr r2 (List.mem_cons_of_mem _ hrr))]
      simp [flattenToks]

/-- Membership in `digitRuns` is membership of the run token. -/
theorem mem_digitRuns (s r : List Char) :
    r ∈ digitRuns s ↔ Tok.run r ∈ tokenize s := by
  rw [digitRuns, List.mem_filterMap]
  constructor
  · rintro ⟨t, ht, hf⟩
    cases t with
    | run r2 =>
      simp only [Option.some.injEq] at hf
      rw [← hf]
      exact ht
    | ch c => simp at hf
  · intro h
    exact ⟨Tok.run r, h, rfl⟩

/-- C1 (amended): `substitute_incremented` scans the expression left to right
for maximal digit runs, replaces the i-th run (counting from 1) with the
decimal rendering of its value plus `increment_dict.get(i, 0) * multiplier`,
and copies every other character; in particular, when every applicable
increment is 0 AND every digit run of the expression is the canonical decimal
rendering of its own value (no leading zeros), the output equals the input. -/
theorem claim_C1_amended (inc : Nat → Int) (mult : Int) (s : List Char) :
    substitute_incremented inc mult s = spec_substitute inc mult s ∧
    ((∀ i, inc i = 0) → (∀ r ∈ digitRuns s, intToStr ((digitsToNat r : Int)) = r) →
      substitute_incremented inc mult s = s) := by
  constructor
  · exact substitute_eq_spec inc mult s
  · intro hinc hruns
    rw [substitute_eq_spec inc mult s, spec_substitute]
    rw [renderToks_self inc mult hinc (tokenize s) 1
      (fun r hrr => hruns r ((mem_digitRuns s r).mpr hrr))]
    exact flattenToks_tokenize s

/-- Closed instance of C1 discharging both hypotheses: with the empty
increment dictionary (all increments 0) and an expression whose runs `12` and
`3` carry no leading zeros, the output equals the input. -/
theorem claim_C1_witness :
    substitute_incremented (fun _ => 0) 1 "a12+b3".data = "a12+b3".data :=
  (claim_C1_amended (fun _ => 0) 1 "a12+b3".data).2 (fun _ => rfl) (by decide)

/-- C1 as stated is false: with every applicable increment 0 (empty increment
dictionary) and multiplier 1, the expression "007" is rewritten to "7" — the
run is re-rendered as the decimal rendering of its value, dropping leading
zeros — so the output differs from the input. -/
theorem claim_C1_counterexample :
    substitute_incremented (fun _ => 0) 1 "007".data ≠ "007".data := by
  rw [substitute_eq_spec]
  decide

/-! ## C3 -/

/-- `trans_mat * rot_mat` applied to a vertex is the rotation about X
followed by the translation. -/
theorem applyMat4_trans_rot (c s pos : ℚ) (v : Vec3) :
    applyMat4 (matMul (translationMat (0, pos, 0)) (rotationMatX c s)) v =
      translateApply (0, pos, 0) (rotXApply c s v) := by
  obtain ⟨x, y, z⟩ := v
  simp only [applyMat4, matMul, mulVec4, dot4, translationMat, rotationMatX,
    col0, col1, col2, col3, translateApply, rotXApply, Prod.mk.injEq]
  refine ⟨by ring, by ring, by ring⟩

/-- C3 (amended): every widget of the family applies to its vertex table
exactly the affine transform translation-after-rotation (translation by
(0, pos, 0), rotation by the given angle about X), with the edge table passed
through unchanged; the sphere, ring, square, triangle and bidirection vertex
tables are fixed up to uniform scaling of the coordinates by size, while the
box, fourways and fourgaps tables scale only their X and Z coordinates by
size, their Y coordinates being fixed constants. -/
theorem claim_C3_amended (size pos c s : ℚ) :
    (∀ sh : WShape, create_widget_mesh sh size pos c s =
      ((vertsOf sh size).map (fun v => translateApply (0, pos, 0) (rotXApply c s v)),
        edgesOf sh)) ∧
    vertsOf WShape.sphere size = (vertsOf WShape.sphere 1).map (scaleUniform size) ∧
    vertsOf WShape.ring size = (vertsOf WShape.ring 1).map (scaleUniform size) ∧
    vertsOf WShape.square size = (vertsOf WShape.square 1).map (scaleUniform size) ∧
    vertsOf WShape.triangle size = (vertsOf WShape.triangle 1).map (scaleUniform size) ∧
    vertsOf WShape.bidirection size = (vertsOf WShape.bidirection 1).map (scaleUniform size) ∧
    vertsOf WShape.box size = (vertsOf WShape.box 1).map (scaleXZ size) ∧
    vertsOf WShape.fourways size = (vertsOf WShape.fourways 1).map (scaleXZ size) ∧
    vertsOf WShape.fourgaps size = (vertsOf WShape.fourgaps 1).map (scaleXZ size) := by
  refine ⟨?_, ?_, ?_, ?_, ?_, ?_, ?_, ?_, ?_⟩
  · intro sh
    rw [create_widget_mesh]
    refine congrArg (fun l => (l, edgesOf sh)) ?_
    apply List.map_congr_left
    intro v _
    exact applyMat4_trans_rot c s pos v
  · simp [vertsOf, create_sphere_verts, scaleUniform, mul_one, neg_mul]
  · simp [vertsOf, create_ring_verts, scaleUniform, mul_one, neg_mul]
  · simp [vertsOf, create_square_verts, scaleUniform, mul_one, neg_mul]
  · norm_num [vertsOf, create_triangle_verts, scaleUniform, mul_one, neg_mul]
  · simp [vertsOf, create_bidirection_verts, scaleUniform, mul_one, neg_mul]
  · simp [vertsOf, create_box_verts, scaleXZ, mul_one, neg_mul]
  · simp [vertsOf, create_fourways_verts, scaleXZ, mul_one, neg_mul]
  · simp [vertsOf, create_fourgaps_verts, scaleXZ, mul_one, neg_mul]

/-- C3 as stated is false for the box widget: no fixed table reproduces its
vertex list under uniform scaling by size, because the Y coordinates of the
table are the unscaled constants ±0.5 (sizes 1 and 2 would force the first
vertex's table Y entry to be both -0.5 and -0.25). -/
theorem claim_C3_counterexample :
    ¬ ∃ t : List Vec3, ∀ size : ℚ,
        create_box_verts size = t.map (scaleUniform size) := by
  rintro ⟨t, ht⟩
  have h1 := congrArg List.head? (ht 1)
  have h2 := congrArg List.head? (ht 2)
  cases t with
  | nil => simp [create_box_verts] at h1
  | cons v t2 =>
    obtain ⟨x, y, z⟩ := v
    simp only [create_box_verts, List.map_cons, List.head?_cons, Option.some.injEq,
      scaleUniform, Prod.mk.injEq] at h1 h2
    obtain ⟨-, hy1, -⟩ := h1
    obtain ⟨-, hy2, -⟩ := h2
    rw [mul_one] at hy1
    rw [← hy1] at hy2
    norm_num at hy2
